import Mathlib

/-!
Shallow embedding of the dynamic-form repository's core: the schema compiler
(`formJsonToJsonSchema` from the shared module), the hand-rolled validation
adapter (`validateFormValues` from interpretedFormMachine.js), the form
workflow state machine built by `createFormMachine` in
src/machines/formMachineFactory.js, and the server-side machine guard from the
Fastify backend.  JavaScript objects are modelled as association lists over
string keys, JavaScript values as a small inductive type, and the XState v4
macrostep (exit actions, transition actions, entry actions, then resolution of
`always` transitions) as an explicit step function on a state/context pair.
-/

namespace FormEngine

/-- A JavaScript value as it occurs in form data: a string, a number
(modelled as an integer; the repository's constraints and defaults are
integral), a boolean, or `null`.  An absent value (`undefined`) is modelled
as `Option.none` one level up. -/
inductive JsValue where
  | str (s : String)
  | num (n : Int)
  | bool (b : Bool)
  | null
deriving DecidableEq, Repr

/-- A JavaScript object: an association list from string keys to values. -/
abbrev JsObj (α : Type) : Type := List (String × α)

/-- Property read `o[k]`: the value at the first occurrence of key `k`. -/
def jget {α : Type} (k : String) : JsObj α → Option α
  | [] => none
  | p :: rest => if p.1 = k then some p.2 else jget k rest

/-- Property write `o[k] = v` (also `{ ...o, [k]: v }`): replaces the value
at an existing key in place, otherwise appends the new key. -/
def jset {α : Type} (k : String) (v : α) : JsObj α → JsObj α
  | [] => [(k, v)]
  | p :: rest => if p.1 = k then (k, v) :: rest else p :: jset k v rest

/-- Property deletion `delete o[k]`. -/
def jdel {α : Type} (k : String) : JsObj α → JsObj α
  | [] => []
  | p :: rest => if p.1 = k then jdel k rest else p :: jdel k rest

/-- Object spread `{ ...a, ...b }`: keys of `b` override keys of `a`. -/
def jmerge {α : Type} (a b : JsObj α) : JsObj α :=
  b.foldl (fun acc p => jset p.1 p.2 acc) a

/-- The keys of the object are pairwise distinct (true of every object built
with `jset`/`jdel` from the empty object, mirroring real JS objects). -/
def keysNodup {α : Type} (o : JsObj α) : Prop :=
  (o.map Prod.fst).Nodup

/-- One `{value, label}` entry of a select field's `options` array. -/
structure OptionPair where
  value : String
  label : String
deriving DecidableEq, Repr

/-- One entry of an action's `formJson` field list.  Optional JS properties
are `Option`s; `required` models JS truthiness of the `required` property. -/
structure Field where
  name : String
  type : String
  label : Option String := none
  required : Bool := false
  format : Option String := none
  minLength : Option Nat := none
  maxLength : Option Nat := none
  pattern : Option String := none
  minimum : Option Int := none
  maximum : Option Int := none
  options : Option (List OptionPair) := none
  default : Option JsValue := none
  placeholder : Option String := none
  description : Option String := none
deriving DecidableEq, Repr

/-- JS `${label || name}`: the field's label unless it is absent or the empty
string (falsy), in which case the field's name. -/
def labelOr (field : Field) : String :=
  match field.label with
  | some l => if l = "" then field.name else l
  | none => field.name

/-- JS `String.prototype.trim` on the character list: strip leading and
trailing whitespace. -/
def trimChars (cs : List Char) : List Char :=
  ((cs.dropWhile Char.isWhitespace).reverse.dropWhile Char.isWhitespace).reverse

/-- Split a character list at every occurrence of `sep` (the list-level
counterpart of JS `String.prototype.split`). -/
def splitOnChar (sep : Char) (cs : List Char) : List (List Char) :=
  match cs with
  | [] => [[]]
  | c :: rest =>
    match splitOnChar sep rest with
    | [] => [[]]
    | part :: parts => if c = sep then [] :: part :: parts else (c :: part) :: parts

/-- Digit-string to number, `none` when the list is empty or holds a
non-digit character. -/
def digitsToNat (cs : List Char) : Option Nat :=
  if !cs.isEmpty && cs.all (fun c => c.isDigit) then
    some (cs.foldl (fun acc c => acc * 10 + (c.toNat - 48)) 0)
  else none

/-- JS `Number(s)` on a string: trimmed-empty strings coerce to `0`, signed
digit strings to their value, anything else to `NaN` (`none`).  (Fractional
literals are outside the `JsValue` model.) -/
def strToNumber (s : String) : Option Int :=
  match trimChars s.toList with
  | [] => some (0 : Int)
  | '-' :: rest => (digitsToNat rest).map (fun n => -(n : Int))
  | '+' :: rest => (digitsToNat rest).map (fun n => (n : Int))
  | cs => (digitsToNat cs).map (fun n => (n : Int))

/-- JS `Number(value)`; `none` models `NaN`. -/
def jsNumber : JsValue → Option Int
  | JsValue.num n => some n
  | JsValue.bool b => some (if b then 1 else 0)
  | JsValue.null => some 0
  | JsValue.str s => strToNumber s

/-- JS `String(value)`. -/
def jsToString : JsValue → String
  | JsValue.str s => s
  | JsValue.num n => toString n
  | JsValue.bool b => if b then "true" else "false"
  | JsValue.null => "null"

/-- One character of the regex class `[^\s@]`. -/
def emailClassChar (c : Char) : Bool :=
  !c.isWhitespace && c != '@'

/-- A nonempty run of `[^\s@]` characters. -/
def emailPartOk (cs : List Char) : Bool :=
  !cs.isEmpty && cs.all emailClassChar

/-- The list has a `'.'` that is neither its first nor its last element. -/
def interiorDot (cs : List Char) : Bool :=
  match cs with
  | [] => false
  | _ :: rest => rest.dropLast.contains '.'

/-- The test of `/^[^\s@]+@[^\s@]+\.[^\s@]+$/` (interpretedFormMachine.js):
exactly one `@`, a nonempty whitespace-free local part, and a domain part
containing a dot that is not at its edge. -/
def emailRegexTest (s : String) : Bool :=
  match splitOnChar '@' s.toList with
  | [lp, dom] => emailPartOk lp && emailPartOk dom && interiorDot dom
  | _ => false

/-- The `required` missing-value test of `validateFormValues`: the value is
absent (`undefined`), `null`, or a string that trims to empty. -/
def requiredMissing : Option JsValue → Prop
  | none => True
  | some JsValue.null => True
  | some (JsValue.str s) => trimChars s.toList = []
  | some _ => False

instance : DecidablePred requiredMissing := fun v => by
  cases v with
  | none => exact isTrue trivial
  | some w => cases w <;> simp [requiredMissing] <;> infer_instance

/- Error-message builders, verbatim from the template literals of
`validateFormValues` in interpretedFormMachine.js. -/

def msgRequired (field : Field) : String := labelOr field ++ " is required"

def msgNaN (field : Field) : String := labelOr field ++ " must be a number"

def msgMin (field : Field) (m : Int) : String :=
  labelOr field ++ " must be ≥ " ++ toString m

def msgMax (field : Field) (m : Int) : String :=
  labelOr field ++ " must be ≤ " ++ toString m

def msgMinLength (field : Field) (n : Nat) : String :=
  labelOr field ++ " must have at least " ++ toString n ++ " characters"

def msgEmail (field : Field) : String := labelOr field ++ " must be a valid email"

/-- The body of `validateFormValues`'s per-field loop iteration
(interpretedFormMachine.js lines 168-217), as a transformer of the mutable
`errors` object.  `continue` after the required and NaN branches is the early
return; the minimum/maximum and minLength/format pairs write sequentially to
`errors[name]`, the later write overwriting the earlier. -/
def validateField (errors : JsObj String) (formValues : JsObj JsValue)
    (field : Field) : JsObj String :=
  let value := jget field.name formValues
  if field.required = true ∧ requiredMissing value then
    jset field.name (msgRequired field) errors
  else
    match value with
    | none => errors
    | some v =>
      if v = JsValue.null ∨ v = JsValue.str ("") then errors
      else if field.type = "number" ∨ field.type = "integer" then
        match jsNumber v with
        | none => jset field.name (msgNaN field) errors
        | some num =>
          let e1 := match field.minimum with
            | some mn => if num < mn then jset field.name (msgMin field mn) errors else errors
            | none => errors
          match field.maximum with
          | some mx => if num > mx then jset field.name (msgMax field mx) e1 else e1
          | none => e1
      else
        let e1 := match field.minLength with
          | some ml =>
            if (jsToString v).length < ml then
              jset field.name (msgMinLength field ml) errors
            else errors
          | none => errors
        if field.format = some ("email") ∧ emailRegexTest (jsToString v) = false then
          jset field.name (msgEmail field) e1
        else e1

/-- Function `validateFormValues(formValues, formJson)` of interpretedFormMachine.js:
folds the per-field check over the field list, starting from an empty error
object. -/
def validateFormValues (formValues : JsObj JsValue) (formJson : List Field) :
    JsObj String :=
  formJson.foldl (fun errs field => validateField errs formValues field) []

/-- The error message the specification's fixed evaluation order assigns to a
field, written from the spec's words: the first violated rule in the order
required → type → format → minLength → minimum/maximum, at most one message
per field.  Within the minimum/maximum tier (for which the spec fixes no
relative order) the maximum rule's message is recorded when both are violated
(possible only when the field declares `minimum > maximum`). -/
def claimOrderMessage (field : Field) (value : Option JsValue) : Option String :=
  if field.required = true ∧ requiredMissing value then some (msgRequired field)
  else
    match value with
    | none => none
    | some v =>
      if v = JsValue.null ∨ v = JsValue.str ("") then none
      else if field.type = "number" ∨ field.type = "integer" then
        match jsNumber v with
        | none => some (msgNaN field)
        | some num =>
          let minMsg := match field.minimum with
            | some mn => if num < mn then some (msgMin field mn) else none
            | none => none
          let maxMsg := match field.maximum with
            | some mx => if num > mx then some (msgMax field mx) else none
            | none => none
          match maxMsg with
          | some m => some m
          | none => minMsg
      else
        let lenMsg := match field.minLength with
          | some ml => if (jsToString v).length < ml then some (msgMinLength field ml) else none
          | none => none
        if field.format = some ("email") ∧ emailRegexTest (jsToString v) = false then
          some (msgEmail field)
        else lenMsg

/-- JS truthiness filter for optional numeric constraints: `if (field.x)
prop.x = field.x` keeps the value only when it is present and nonzero. -/
def truthyNat : Option Nat → Option Nat
  | some n => if n = 0 then none else some n
  | none => none

/-- JS truthiness filter for optional string properties: `if (field.x)
prop.x = field.x` keeps the value only when it is present and nonempty. -/
def truthyString : Option String → Option String
  | some s => if s = "" then none else some s
  | none => none

/-- One property of the generated JSON Schema (`prop` in the shared
`formJsonToJsonSchema`); absent JS properties are `none`. -/
structure SchemaProp where
  type : String := ""
  format : Option String := none
  minLength : Option Nat := none
  maxLength : Option Nat := none
  pattern : Option String := none
  minimum : Option Int := none
  maximum : Option Int := none
  enum : Option (List String) := none
  oneOf : Option (List (String × String)) := none
  default : Option JsValue := none
  title : Option String := none
  description : Option String := none
deriving DecidableEq, Repr

/-- The generated JSON Schema object. -/
structure JsonSchema where
  type : String := "object"
  properties : JsObj SchemaProp := []
  required : List String := []
deriving DecidableEq, Repr

/-- The field types named by the `switch (field.type)` of the shared
`formJsonToJsonSchema`; every other type falls to the `default:` arm. -/
def knownFieldTypes : List String :=
  ["string", "text", "textarea", "email", "number", "integer", "select", "boolean", "date"]

/-- The `switch (field.type)` of the shared `formJsonToJsonSchema`
(packages/shared/formMachine, embedded from the source appended to
src/hooks/useFormMachine.js, lines 66-99).  A `select` field reads
`field.options.map(...)`, which throws a TypeError when `options` is absent;
this failure is the `Except.error` branch. -/
def compilePropCore (field : Field) : Except String SchemaProp :=
  if field.type = "string" ∨ field.type = "text" ∨ field.type = "textarea" then
    Except.ok { type := "string",
                minLength := truthyNat field.minLength,
                maxLength := truthyNat field.maxLength,
                pattern := truthyString field.pattern }
  else if field.type = "email" then
    Except.ok { type := "string", format := some ("email") }
  else if field.type = "number" ∨ field.type = "integer" then
    Except.ok { type := field.type,
                minimum := field.minimum,
                maximum := field.maximum }
  else if field.type = "select" then
    match field.options with
    | some opts =>
      Except.ok { type := "string",
                  enum := some (opts.map OptionPair.value),
                  oneOf := some (opts.map (fun o => (o.value, o.label))) }
    | none => Except.error ("TypeError: cannot read properties of undefined (reading map)")
  else if field.type = "boolean" then
    Except.ok { type := "boolean" }
  else if field.type = "date" then
    Except.ok { type := "string", format := some ("date") }
  else
    Except.ok { type := "string" }

/-- One loop iteration of the shared `formJsonToJsonSchema`: the switch,
followed by the unconditional `default` copy and the truthiness-guarded
`title` and `description` copies. -/
def compileProp (field : Field) : Except String SchemaProp :=
  match compilePropCore field with
  | Except.ok p =>
    Except.ok { p with default := field.default,
                       title := truthyString field.label,
                       description := truthyString field.description }
  | Except.error e => Except.error e

/-- The loop of the shared `formJsonToJsonSchema`: each field's compiled
property is stored under the field's name and required fields are appended,
in field order, to the schema's `required` array; a thrown TypeError aborts
the whole compilation. -/
def buildSchema : List Field → JsonSchema → Except String JsonSchema
  | [], acc => Except.ok acc
  | field :: rest, acc =>
    match compileProp field with
    | Except.error e => Except.error e
    | Except.ok prop =>
      buildSchema rest
        { acc with properties := jset field.name prop acc.properties,
                   required := if field.required then acc.required ++ [field.name]
                               else acc.required }

/-- Function `formJsonToJsonSchema(formJson)` of the shared module: compile a field
list into a JSON Schema. -/
def formJsonToJsonSchema (formJson : List Field) : Except String JsonSchema :=
  buildSchema formJson { type := "object", properties := [], required := [] }

/- ----------------------------------------------------------------
   The form workflow machine of src/machines/formMachineFactory.js
   ---------------------------------------------------------------- -/

/-- The states of the machine built by `createFormMachine`. -/
inductive MState where
  | idle
  | editing
  | validating
  | submitting
  | success
deriving DecidableEq, Repr

/-- The machine's context, as initialised in `createFormMachine`. -/
structure MCtx where
  form : JsObj JsValue
  errors : JsObj String
  submitting : Bool
  result : Option JsValue
  serverError : Option String
deriving DecidableEq, Repr

/-- The events the machine reacts to.  `SUBMIT_DONE`/`SUBMIT_ERROR` are the
resolution events of the invoked submit service (`onDone`/`onError`);
`SUBMIT_ERROR` carries `ev.data?.message` (`none` when the rejection payload
is absent or has no `message`). -/
inductive MEvent where
  | OPEN
  | PREFILL (data : JsObj JsValue)
  | CHANGE (name : String) (value : JsValue)
  | SUBMIT
  | RESET
  | CLOSE
  | SUBMIT_DONE (data : JsValue)
  | SUBMIT_ERROR (message : Option String)

/-- Helper `buildInitialValues` (formMachineFactory.js lines 112-122): seed value of
one field — its declared default, else `false` for `boolean` fields and the
empty string otherwise. -/
def initialValueOf (field : Field) : JsValue :=
  match field.default with
  | some d => d
  | none => if field.type = "boolean" then JsValue.bool false else JsValue.str ("")

/-- Function `buildInitialValues(formJson)`: the machine's initial `form` object. -/
def buildInitialValues (formJson : List Field) : JsObj JsValue :=
  formJson.foldl (fun values field => jset field.name (initialValueOf field) values) []

/- The named actions of `createFormMachine`'s implementation table. -/

/-- Action `assignField`: `form: { ...ctx.form, [ev.name]: ev.value }`. -/
def assignField (name : String) (value : JsValue) (c : MCtx) : MCtx :=
  { c with form := jset name value c.form }

/-- Action `clearFieldError`: copy `ctx.errors` and `delete next[ev.name]`. -/
def clearFieldError (name : String) (c : MCtx) : MCtx :=
  { c with errors := jdel name c.errors }

/-- Action `runValidation`: `errors: validateWithAJV(ctx.form, action.formJson)`,
with the validator abstracted as a parameter `vf` (the factory closes over
`validateWithAJV`, which delegates to the external AJV engine). -/
def runValidation (vf : JsObj JsValue → JsObj String) (c : MCtx) : MCtx :=
  { c with errors := vf c.form }

/-- Action `prefillForm`: `form: { ...ctx.form, ...ev.data }`. -/
def prefillForm (data : JsObj JsValue) (c : MCtx) : MCtx :=
  { c with form := jmerge c.form data }

/-- Action `resetForm`: restore the initial form, clear errors, result and server
error. -/
def resetForm (initialForm : JsObj JsValue) (c : MCtx) : MCtx :=
  { c with form := initialForm, errors := [], result := none, serverError := none }

/-- Action `markSubmitting`: `assign({ submitting: true })`. -/
def markSubmitting (c : MCtx) : MCtx := { c with submitting := true }

/-- Action `clearSubmitting`: `assign({ submitting: false })`. -/
def clearSubmitting (c : MCtx) : MCtx := { c with submitting := false }

/-- Action `assignResult`: `result: ev.data`. -/
def assignResult (data : JsValue) (c : MCtx) : MCtx := { c with result := some data }

/-- Action `assignServerError`: `serverError: ev.data?.message || 'Submission
failed'` — the fallback fires when the payload or its `message` is absent or
the message is the (falsy) empty string. -/
def assignServerError (message : Option String) (c : MCtx) : MCtx :=
  { c with serverError := some (match message with
      | some m => if m = "" then "Submission failed" else m
      | none => "Submission failed") }

/-- Action `clearServerError`: `assign({ serverError: null })`. -/
def clearServerError (c : MCtx) : MCtx := { c with serverError := none }

/-- Guard `isValid`: `Object.keys(ctx.errors).length === 0`. -/
def isValid (c : MCtx) : Bool := c.errors.isEmpty

/-- The `validating` state's `always` transitions: `isValid` guards the move
to `submitting` (whose entry runs `markSubmitting`); otherwise the machine
falls back to `editing` (whose entry runs `clearServerError`). -/
def resolveValidating (c : MCtx) : MState × MCtx :=
  if isValid c then (MState.submitting, markSubmitting c)
  else (MState.editing, clearServerError c)

/-- The `idle` state's event handlers. -/
def stepIdle (c : MCtx) : MEvent → MState × MCtx
  | MEvent.OPEN => (MState.editing, clearServerError c)
  | MEvent.PREFILL data => (MState.editing, clearServerError (prefillForm data c))
  | _ => (MState.idle, c)

/-- The `editing` state's event handlers.  `CHANGE` is an internal
transition (actions `assignField`, `clearFieldError`, no entry re-run);
`SUBMIT` runs `runValidation` as its transition action, enters `validating`,
and the `always` transitions of `validating` resolve within the same
macrostep; `RESET` runs `resetForm` and returns to `idle`. -/
def stepEditing (vf : JsObj JsValue → JsObj String) (initialForm : JsObj JsValue)
    (c : MCtx) : MEvent → MState × MCtx
  | MEvent.CHANGE name value => (MState.editing, clearFieldError name (assignField name value c))
  | MEvent.SUBMIT => resolveValidating (runValidation vf c)
  | MEvent.RESET => (MState.idle, resetForm initialForm c)
  | _ => (MState.editing, c)

/-- The `submitting` state's handlers: only the invoked service's resolution
events are handled (in particular there is no `CHANGE` transition).  On
`onDone` the transition actions `assignResult`, `clearSubmitting` run and the
machine enters `success`; on `onError` the transition actions
`assignServerError`, `clearSubmitting` run and then — transition actions
before target entry actions in XState v4 — the `editing` entry action
`clearServerError` runs. -/
def stepSubmitting (c : MCtx) : MEvent → MState × MCtx
  | MEvent.SUBMIT_DONE data => (MState.success, clearSubmitting (assignResult data c))
  | MEvent.SUBMIT_ERROR message =>
    (MState.editing, clearServerError (clearSubmitting (assignServerError message c)))
  | _ => (MState.submitting, c)

/-- The `success` state's handlers. -/
def stepSuccess (initialForm : JsObj JsValue) (c : MCtx) : MEvent → MState × MCtx
  | MEvent.OPEN => (MState.editing, clearServerError (resetForm initialForm c))
  | MEvent.CLOSE => (MState.idle, c)
  | _ => (MState.success, c)

/-- One macrostep of the machine built by `createFormMachine`: process one
event to completion, including the chained `always` transitions of
`validating`; events without a transition in the current state are ignored
(XState's default), leaving state and context unchanged. -/
def machineStep (vf : JsObj JsValue → JsObj String) (initialForm : JsObj JsValue)
    (s : MState) (c : MCtx) (e : MEvent) : MState × MCtx :=
  match s with
  | MState.idle => stepIdle c e
  | MState.editing => stepEditing vf initialForm c e
  | MState.validating => resolveValidating c
  | MState.submitting => stepSubmitting c e
  | MState.success => stepSuccess initialForm c e

/- ----------------------------------------------------------------
   The server-side machine guard of the Fastify backend
   ---------------------------------------------------------------- -/

/-- The context of the shared `formMachineDefinition` as interpreted by the
Fastify backend's WebSocket session. -/
structure ServerCtx where
  formId : String
  formData : JsObj JsValue
  errors : JsObj String
  serverErrors : JsObj String
  isSubmitting : Bool
  result : Option JsValue
deriving DecidableEq, Repr

/-- The backend's guard `isValid` (server source lines 190-204): it
re-invokes the precompiled AJV validator on `ctx.formData` (the validator is
abstracted as the parameter `vf`, returning the field-keyed error map the
guard's loop builds from `validator.errors`), and when the data is invalid it
mutates `ctx.errors` in place from inside the guard before returning the
verdict.  The returned pair is (guard result, context after evaluation). -/
def serverIsValid (vf : JsObj JsValue → JsObj String) (ctx : ServerCtx) :
    Bool × ServerCtx :=
  let errs := vf ctx.formData
  if errs.isEmpty then (true, ctx)
  else (false, { ctx with errors := errs })

/- ----------------------------------------------------------------
   Concrete fixtures (fields and contexts used by the witnesses and
   counterexamples below; the fields mirror the example `createUser`
   action of interpretedFormMachine.js and the backend registry)
   ---------------------------------------------------------------- -/

/-- The `username` field of the example `createUser` action. -/
def usernameField : Field :=
  { name := "username", type := "string", label := some ("Username"),
    required := true, minLength := some 3 }

/-- The `email` field of the example `createUser` action. -/
def emailField : Field :=
  { name := "email", type := "string", label := some ("Email"),
    required := true, format := some ("email") }

/-- The `age` field of the backend `createUser` action. -/
def ageField : Field :=
  { name := "age", type := "integer", label := some ("Age"),
    minimum := some 18, maximum := some 120 }

/-- A select field that carries no `options` array. -/
def selectFieldNoOptions : Field :=
  { name := "role", type := "select", required := true }

/-- A select field with the `createUser` role options. -/
def roleField : Field :=
  { name := "role", type := "select", required := true,
    options := some [{ value := "user", label := "User" },
                     { value := "admin", label := "Admin" }],
    default := some (JsValue.str ("user")) }

/-- A string field declaring `minLength: 0`. -/
def minLenZeroField : Field :=
  { name := "username", type := "string", minLength := some 0 }

/-- An email field declaring `minLength: 5`. -/
def emailMinLenField : Field :=
  { name := "email", type := "email", minLength := some 5 }

/-- The `email` field with an additional `minLength: 5` constraint. -/
def emailLen5Field : Field :=
  { name := "email", type := "string", label := some ("Email"),
    required := true, format := some ("email"), minLength := some 5 }

/-- A field whose `type` is none of the kinds the schema compiler's switch
recognizes. -/
def unknownKindField : Field :=
  { name := "notes", type := "richtext" }

/-- A machine context mid-submission, as after a valid `SUBMIT`. -/
def submittingCtx : MCtx :=
  { form := [("username", JsValue.str ("jsmith"))], errors := [],
    submitting := true, result := none, serverError := none }

/-- An editing-state context with errors on two distinct fields. -/
def twoErrorsCtx : MCtx :=
  { form := [("username", JsValue.str ("ab")), ("email", JsValue.str ("bad"))],
    errors := [("username", "Username must have at least 3 characters"),
               ("email", "Email must be a valid email")],
    submitting := false, result := none, serverError := none }

/-- A concrete validator closure over the example `username`/`email`
definition, built from the embedded hand-rolled validator. -/
def validateExample : JsObj JsValue → JsObj String :=
  fun values => validateFormValues values [usernameField, emailField]

/-- A stand-in for the backend's precompiled AJV validator of `createUser`
at empty form data: AJV reports the missing required properties; only the
non-emptiness of the map matters to the guard. -/
def serverBugValidator : JsObj JsValue → JsObj String :=
  fun _ => [("username", "must have required property username")]

/-- A fresh backend session context for `createUser`: empty form data and an
empty stored error map. -/
def serverBugCtx : ServerCtx :=
  { formId := "createUser", formData := [], errors := [], serverErrors := [],
    isSubmitting := false, result := none }

/- ----------------------------------------------------------------
   Association-list lemmas
   ---------------------------------------------------------------- -/

theorem jget_jset {α : Type} (k k' : String) (v : α) (o : JsObj α) :
    jget k (jset k' v o) = if k' = k then some v else jget k o := by
  induction o with
  | nil => simp [jget, jset]
  | cons p rest ih =>
    by_cases h1 : p.1 = k'
    · by_cases h2 : k' = k <;> simp [jget, jset, h1, h2]
    · simp only [jset, if_neg h1]
      by_cases h2 : p.1 = k
      · have : ¬ k' = k := fun he => h1 (h2.trans he.symm)
        simp [jget, h2, this]
      · simp [jget, h2, ih]

theorem jget_jset_self {α : Type} (k : String) (v : α) (o : JsObj α) :
    jget k (jset k v o) = some v := by
  simp [jget_jset]

theorem jget_jset_ne {α : Type} {k k' : String} (h : k' ≠ k) (v : α) (o : JsObj α) :
    jget k (jset k' v o) = jget k o := by
  simp [jget_jset, h]

theorem jset_jset {α : Type} (k : String) (v v' : α) (o : JsObj α) :
    jset k v' (jset k v o) = jset k v' o := by
  induction o with
  | nil => simp [jset]
  | cons p rest ih =>
    by_cases h : p.1 = k <;> simp [jset, h, ih]

theorem jget_jdel_self {α : Type} (k : String) (o : JsObj α) :
    jget k (jdel k o) = none := by
  induction o with
  | nil => simp [jget, jdel]
  | cons p rest ih =>
    by_cases h : p.1 = k <;> simp [jget, jdel, h, ih]

theorem jget_jdel_ne {α : Type} {k k' : String} (h : k' ≠ k) (o : JsObj α) :
    jget k (jdel k' o) = jget k o := by
  induction o with
  | nil => rfl
  | cons p rest ih =>
    simp only [jdel]
    by_cases h1 : p.1 = k'
    · have hk : ¬ p.1 = k := fun he => h (h1.symm.trans he)
      rw [if_pos h1, ih]
      simp [jget, hk]
    · rw [if_neg h1]
      simp only [jget, ih]

theorem jget_none_of_not_memKeys {α : Type} {k : String} {o : JsObj α}
    (h : k ∉ o.map Prod.fst) : jget k o = none := by
  induction o with
  | nil => rfl
  | cons p rest ih =>
    rw [List.map_cons, List.mem_cons, not_or] at h
    have hne : ¬ p.1 = k := fun he => h.1 he.symm
    simp only [jget, if_neg hne]
    exact ih h.2

theorem map_fst_jset {α : Type} (k : String) (v : α) (o : JsObj α) :
    (jset k v o).map Prod.fst =
      if k ∈ o.map Prod.fst then o.map Prod.fst else o.map Prod.fst ++ [k] := by
  induction o with
  | nil => simp [jset]
  | cons p rest ih =>
    by_cases h1 : p.1 = k
    · simp [jset, h1]
    · have hne : ¬ k = p.1 := fun he => h1 he.symm
      by_cases h2 : k ∈ rest.map Prod.fst <;> simp [jset, h1, ih, h2, hne]

theorem keysNodup_jset {α : Type} (k : String) (v : α) {o : JsObj α}
    (h : keysNodup o) : keysNodup (jset k v o) := by
  unfold keysNodup at *
  rw [map_fst_jset]
  by_cases h2 : k ∈ o.map Prod.fst
  · simpa [h2] using h
  · rw [if_neg h2]
    exact List.Nodup.append h (List.nodup_singleton k)
      (by simpa [List.disjoint_right] using h2)

/- ----------------------------------------------------------------
   The per-field net effect of the hand-rolled validator
   ---------------------------------------------------------------- -/

/-- The per-field loop body of `validateFormValues` writes at most one final
message for its field — exactly the message of `claimOrderMessage` — and
leaves every other key of the error object alone. -/
theorem validateField_eq (errs : JsObj String) (values : JsObj JsValue) (field : Field) :
    validateField errs values field =
      match claimOrderMessage field (jget field.name values) with
      | some m => jset field.name m errs
      | none => errs := by
  unfold validateField claimOrderMessage
  by_cases hreq : field.required = true ∧ requiredMissing (jget field.name values)
  · simp only [if_pos hreq]
  · simp only [if_neg hreq]
    cases hv : jget field.name values with
    | none => simp
    | some v =>
      by_cases hne : v = JsValue.null ∨ v = JsValue.str ("")
      · simp [hne]
      · simp only [if_neg hne]
        by_cases hnum : field.type = "number" ∨ field.type = "integer"
        · simp only [if_pos hnum]
          cases hn : jsNumber v with
          | none => simp
          | some num =>
            cases hmin : field.minimum with
            | none =>
              cases hmax : field.maximum with
              | none => simp
              | some mx => by_cases h2 : num > mx <;> simp [h2]
            | some mn =>
              cases hmax : field.maximum with
              | none => by_cases h1 : num < mn <;> simp [h1]
              | some mx =>
                by_cases h1 : num < mn <;> by_cases h2 : num > mx <;>
                  simp [h1, h2, jset_jset]
        · simp only [if_neg hnum]
          by_cases hfm : field.format = some ("email") ∧ emailRegexTest (jsToString v) = false
          · cases hml : field.minLength with
            | none => simp [hfm]
            | some ml =>
              by_cases h1 : (jsToString v).length < ml <;>
                simp [hfm, h1, jset_jset]
          · cases hml : field.minLength with
            | none => simp [hfm]
            | some ml =>
              by_cases h1 : (jsToString v).length < ml <;> simp [hfm, h1]

theorem validateField_frame {k : String} {field : Field}
    (errs : JsObj String) (values : JsObj JsValue) (h : field.name ≠ k) :
    jget k (validateField errs values field) = jget k errs := by
  rw [validateField_eq]
  cases claimOrderMessage field (jget field.name values) with
  | none => rfl
  | some m => exact jget_jset_ne h m errs

theorem validateField_isSome {k : String} {errs : JsObj String}
    (values : JsObj JsValue) (field : Field) (h : (jget k errs).isSome = true) :
    (jget k (validateField errs values field)).isSome = true := by
  rw [validateField_eq]
  cases claimOrderMessage field (jget field.name values) with
  | none => exact h
  | some m =>
    by_cases he : field.name = k
    · subst he; simp [jget_jset_self]
    · rw [jget_jset_ne he]; exact h

theorem validateField_keysNodup {errs : JsObj String}
    (values : JsObj JsValue) (field : Field) (h : keysNodup errs) :
    keysNodup (validateField errs values field) := by
  rw [validateField_eq]
  cases claimOrderMessage field (jget field.name values) with
  | none => exact h
  | some m => exact keysNodup_jset field.name m h

theorem validateFold_frame {k : String} (values : JsObj JsValue) :
    ∀ (l : List Field) (errs : JsObj String), (∀ f ∈ l, f.name ≠ k) →
      jget k (l.foldl (fun e f => validateField e values f) errs) = jget k errs := by
  intro l
  induction l with
  | nil => intro errs _; rfl
  | cons g t ih =>
    intro errs hall
    rw [List.foldl_cons, ih _ (fun f hf => hall f (List.mem_cons_of_mem g hf))]
    exact validateField_frame errs values (hall g (List.mem_cons_self g t))

theorem validateFold_isSome {k : String} (values : JsObj JsValue) :
    ∀ (l : List Field) (errs : JsObj String), (jget k errs).isSome = true →
      (jget k (l.foldl (fun e f => validateField e values f) errs)).isSome = true := by
  intro l
  induction l with
  | nil => intro errs h; exact h
  | cons g t ih =>
    intro errs h
    exact ih _ (validateField_isSome values g h)

theorem validateFold_keysNodup (values : JsObj JsValue) :
    ∀ (l : List Field) (errs : JsObj String), keysNodup errs →
      keysNodup (l.foldl (fun e f => validateField e values f) errs) := by
  intro l
  induction l with
  | nil => intro errs h; exact h
  | cons g t ih =>
    intro errs h
    exact ih _ (validateField_keysNodup values g h)

theorem validateFold_message (values : JsObj JsValue) {field : Field} :
    ∀ (l : List Field) (errs : JsObj String), (l.map Field.name).Nodup →
      field ∈ l → jget field.name errs = none →
      jget field.name (l.foldl (fun e f => validateField e values f) errs) =
        claimOrderMessage field (jget field.name values) := by
  intro l
  induction l with
  | nil => intro errs _ hmem; exact absurd hmem (List.not_mem_nil field)
  | cons g t ih =>
    intro errs hnodup hmem hnone
    rw [List.map_cons, List.nodup_cons] at hnodup
    rcases List.mem_cons.mp hmem with heq | hmem'
    · subst heq
      rw [List.foldl_cons,
        validateFold_frame values t _
          (fun f hf hne =>
            hnodup.1 (by rw [← hne]; exact List.mem_map_of_mem Field.name hf)),
        validateField_eq]
      cases claimOrderMessage field (jget field.name values) with
      | none => exact hnone
      | some m => exact jget_jset_self field.name m errs
    · have hne : g.name ≠ field.name :=
        fun he => hnodup.1 (he ▸ List.mem_map_of_mem Field.name hmem')
      rw [List.foldl_cons]
      exact ih _ hnodup.2 hmem' ((validateField_frame errs values hne).trans hnone)

theorem validateFold_required (values : JsObj JsValue) {field : Field}
    (hreq : field.required = true) (hm : requiredMissing (jget field.name values)) :
    ∀ (l : List Field) (errs : JsObj String), field ∈ l →
      (jget field.name (l.foldl (fun e f => validateField e values f) errs)).isSome = true := by
  intro l
  induction l with
  | nil => intro errs hmem; exact absurd hmem (List.not_mem_nil field)
  | cons g t ih =>
    intro errs hmem
    rcases List.mem_cons.mp hmem with heq | hmem'
    · subst heq
      rw [List.foldl_cons]
      apply validateFold_isSome values t
      rw [validateField_eq]
      have hc : claimOrderMessage field (jget field.name values) = some (msgRequired field) := by
        unfold claimOrderMessage
        rw [if_pos ⟨hreq, hm⟩]
      rw [hc]
      simp [jget_jset_self]
    · rw [List.foldl_cons]
      exact ih _ hmem'

/-- C2.  For every field list, every field marked `required`, and every value
map, `validateFormValues` records an error entry for that field whenever its
value is absent, `null`, or a string that is empty or whitespace-only after
trimming. -/
theorem validate_required_reports_error (formJson : List Field)
    (values : JsObj JsValue) (field : Field) (hmem : field ∈ formJson)
    (hreq : field.required = true)
    (hmiss : jget field.name values = none ∨
             jget field.name values = some JsValue.null ∨
             ∃ s, jget field.name values = some (JsValue.str s) ∧ trimChars s.toList = []) :
    (jget field.name (validateFormValues values formJson)).isSome = true := by
  have hm : requiredMissing (jget field.name values) := by
    rcases hmiss with h | h | ⟨s, hs, ht⟩
    · rw [h]; trivial
    · rw [h]; trivial
    · rw [hs]; exact ht
  exact validateFold_required values hreq hm formJson [] hmem

/-- Witness for C2 at the example `createUser` fields: with `username`
absent, `email` null, and `role` whitespace-only, every required field is
reported. -/
theorem validate_required_reports_error_witness :
    (jget ("username")
      (validateFormValues [("email", JsValue.null), ("role", JsValue.str (" "))]
        [usernameField, emailField, { roleField with default := none }])).isSome = true :=
  validate_required_reports_error
    [usernameField, emailField, { roleField with default := none }]
    [("email", JsValue.null), ("role", JsValue.str (" "))]
    usernameField (by decide) (by decide) (Or.inl (by decide))

/-- C5.  For every value map and field list with distinct field names, the
validation outcome holds at most one message per field (its keys are
pairwise distinct), and the message recorded for each field is the one of
the first violated rule in the specification's fixed evaluation order
(required → type → format → minLength → minimum/maximum), as computed by
`claimOrderMessage`; in particular a value that is both too short and not a
valid email gets the format message. -/
theorem validate_first_rule_message (formJson : List Field) (values : JsObj JsValue)
    (hnodup : (formJson.map Field.name).Nodup) :
    keysNodup (validateFormValues values formJson) ∧
    ∀ field ∈ formJson,
      jget field.name (validateFormValues values formJson) =
        claimOrderMessage field (jget field.name values) := by
  constructor
  · exact validateFold_keysNodup values formJson [] (by simp [keysNodup])
  · intro field hmem
    exact validateFold_message values formJson [] hnodup hmem rfl

/-- Witness for C5 at the example `createUser` definition: an email value
that is both shorter than a declared `minLength` of 5 and not a valid email
is reported with the format message, not the length message. -/
theorem validate_first_rule_message_witness :
    jget (emailLen5Field.name)
      (validateFormValues [("username", JsValue.str ("jsmith")), ("email", JsValue.str ("ab"))]
        [usernameField, emailLen5Field]) =
      some ("Email must be a valid email") := by
  rw [(validate_first_rule_message
    [usernameField, emailLen5Field]
    [("username", JsValue.str ("jsmith")), ("email", JsValue.str ("ab"))]
    (by decide)).2 emailLen5Field (by decide)]
  decide

/- ----------------------------------------------------------------
   Initial values (C10)
   ---------------------------------------------------------------- -/

theorem initFold_frame {k : String} :
    ∀ (l : List Field) (acc : JsObj JsValue), (∀ f ∈ l, f.name ≠ k) →
      jget k (l.foldl (fun values field => jset field.name (initialValueOf field) values) acc) =
        jget k acc := by
  intro l
  induction l with
  | nil => intro acc _; rfl
  | cons g t ih =>
    intro acc hall
    rw [List.foldl_cons, ih _ (fun f hf => hall f (List.mem_cons_of_mem g hf))]
    exact jget_jset_ne (hall g (List.mem_cons_self g t)) _ acc

theorem initFold_value {field : Field} :
    ∀ (l : List Field) (acc : JsObj JsValue), (l.map Field.name).Nodup → field ∈ l →
      jget field.name (l.foldl (fun values f => jset f.name (initialValueOf f) values) acc) =
        some (initialValueOf field) := by
  intro l
  induction l with
  | nil => intro acc _ hmem; exact absurd hmem (List.not_mem_nil field)
  | cons g t ih =>
    intro acc hnodup hmem
    rw [List.map_cons, List.nodup_cons] at hnodup
    rcases List.mem_cons.mp hmem with heq | hmem'
    · subst heq
      rw [List.foldl_cons,
        initFold_frame t _
          (fun f hf hne =>
            hnodup.1 (by rw [← hne]; exact List.mem_map_of_mem Field.name hf))]
      exact jget_jset_self field.name _ acc
    · rw [List.foldl_cons]
      exact ih _ hnodup.2 hmem'

/-- C10.  For every field list with distinct names (the data model's
uniqueness invariant), the machine's initial context holds an entry for
every field of the list: the field's declared default when one is given,
otherwise `false` for a `boolean`-typed field and the empty string for every
other field type. -/
theorem buildInitialValues_covers_fields (formJson : List Field)
    (hnodup : (formJson.map Field.name).Nodup) (field : Field) (hmem : field ∈ formJson) :
    jget field.name (buildInitialValues formJson) =
      some (match field.default with
            | some d => d
            | none => if field.type = "boolean" then JsValue.bool false
                      else JsValue.str ("")) := by
  unfold buildInitialValues
  rw [initFold_value formJson [] hnodup hmem]
  rfl

/-- Witness for C10 at the example `createUser` field list: `username` seeds
to the empty string, `subscribe` (boolean, default `false` declared) to
`false`, `role` to its declared default `'user'`. -/
theorem buildInitialValues_covers_fields_witness :
    jget (usernameField.name)
      (buildInitialValues [usernameField, emailField, roleField]) =
      some (JsValue.str ("")) :=
  buildInitialValues_covers_fields [usernameField, emailField, roleField]
    (by decide) usernameField (by decide)

/- ----------------------------------------------------------------
   Workflow machine theorems (C1, C6, C7, C9)
   ---------------------------------------------------------------- -/

/-- C6.  From `editing`, a `SUBMIT` with any form values and any validator
resolves — within the same macrostep, the transient `validating` state's
`always` transitions included — to `submitting` exactly when the validation
outcome is empty and to `editing` otherwise; no other state is reachable. -/
theorem submit_reaches_submitting_or_editing
    (vf : JsObj JsValue → JsObj String) (initialForm : JsObj JsValue) (c : MCtx) :
    ((machineStep vf initialForm MState.editing c MEvent.SUBMIT).1 = MState.submitting ∨
     (machineStep vf initialForm MState.editing c MEvent.SUBMIT).1 = MState.editing) ∧
    ((machineStep vf initialForm MState.editing c MEvent.SUBMIT).1 = MState.submitting ↔
      vf c.form = []) := by
  have hstep : machineStep vf initialForm MState.editing c MEvent.SUBMIT =
      resolveValidating (runValidation vf c) := rfl
  rw [hstep]
  unfold resolveValidating runValidation isValid
  by_cases h : vf c.form = []
  · simp [h]
  · simp only [List.isEmpty_iff]
    simp [h]

/-- C7.  While the machine is in `submitting`, a `CHANGE` event is not
processed: `submitting` defines no `CHANGE` transition, so the event leaves
both the state and the whole context (form values, errors, and the rest)
unchanged. -/
theorem submitting_ignores_change
    (vf : JsObj JsValue → JsObj String) (initialForm : JsObj JsValue) (c : MCtx)
    (name : String) (value : JsValue) :
    machineStep vf initialForm MState.submitting c (MEvent.CHANGE name value) =
      (MState.submitting, c) := rfl

/-- Witness for C6: at the example validator and a context whose username
is too short, the `SUBMIT` macrostep ends in `editing`. -/
theorem submit_reaches_submitting_or_editing_witness :
    (machineStep validateExample [] MState.editing twoErrorsCtx MEvent.SUBMIT).1 =
        MState.submitting ∨
    (machineStep validateExample [] MState.editing twoErrorsCtx MEvent.SUBMIT).1 =
        MState.editing :=
  (submit_reaches_submitting_or_editing validateExample [] twoErrorsCtx).1

/-- Witness for C7: a concrete `CHANGE` during submission is dropped. -/
theorem submitting_ignores_change_witness :
    machineStep validateExample [] MState.submitting submittingCtx
        (MEvent.CHANGE ("username") (JsValue.str ("eve"))) =
      (MState.submitting, submittingCtx) :=
  submitting_ignores_change validateExample [] submittingCtx ("username")
    (JsValue.str ("eve"))

/-- C9.  Processing `CHANGE(name, value)` in `editing` stays in `editing`,
sets `values[name] = value`, removes the error entry for exactly `name`, and
leaves every other field's value, every other field's error entry, and every
other context component unchanged. -/
theorem change_updates_exactly_one_field
    (vf : JsObj JsValue → JsObj String) (initialForm : JsObj JsValue) (c : MCtx)
    (name : String) (value : JsValue) :
    (machineStep vf initialForm MState.editing c (MEvent.CHANGE name value)).1 =
      MState.editing ∧
    (∀ c', (machineStep vf initialForm MState.editing c (MEvent.CHANGE name value)).2 = c' →
      jget name c'.form = some value ∧
      jget name c'.errors = none ∧
      (∀ m, m ≠ name → jget m c'.form = jget m c.form) ∧
      (∀ m, m ≠ name → jget m c'.errors = jget m c.errors) ∧
      c'.submitting = c.submitting ∧
      c'.result = c.result ∧
      c'.serverError = c.serverError) := by
  constructor
  · rfl
  · intro c' hc'
    have he : c' = { c with form := jset name value c.form, errors := jdel name c.errors } :=
      hc'.symm
    subst he
    refine ⟨jget_jset_self name value c.form, jget_jdel_self name c.errors, ?_, ?_, rfl, rfl, rfl⟩
    · intro m hm
      exact jget_jset_ne (fun he' => hm he'.symm) value c.form
    · intro m hm
      exact jget_jdel_ne (fun he' => hm he'.symm) c.errors

/-- Witness for C9 at a context holding errors on both `username` and
`email`: changing `username` clears only the `username` error and keeps the
`email` error and the untouched context components. -/
theorem change_updates_exactly_one_field_witness :
    (machineStep validateExample [] MState.editing twoErrorsCtx
        (MEvent.CHANGE ("username") (JsValue.str ("jsmith")))).1 = MState.editing ∧
    jget ("username")
      (machineStep validateExample [] MState.editing twoErrorsCtx
        (MEvent.CHANGE ("username") (JsValue.str ("jsmith")))).2.form =
      some (JsValue.str ("jsmith")) ∧
    jget ("username")
      (machineStep validateExample [] MState.editing twoErrorsCtx
        (MEvent.CHANGE ("username") (JsValue.str ("jsmith")))).2.errors = none ∧
    jget ("email")
      (machineStep validateExample [] MState.editing twoErrorsCtx
        (MEvent.CHANGE ("username") (JsValue.str ("jsmith")))).2.errors =
      some ("Email must be a valid email") := by
  have h := change_updates_exactly_one_field validateExample [] twoErrorsCtx
    ("username") (JsValue.str ("jsmith"))
  obtain ⟨h1, h2⟩ := h
  obtain ⟨ha, hb, -, hd, -⟩ := h2 _ rfl
  exact ⟨h1, ha, hb, by rw [hd ("email") (by decide)]; decide⟩

/-- C1 (code bug).  With the machine in `submitting` and the submit handler
rejecting with `{message: "duplicate username"}`, the factory machine's
`onError` transition does run `assignServerError` (which stores the
message), but the target `editing` state's entry action `clearServerError`
runs after the transition actions and overwrites it: the resulting `editing`
context carries `serverError = none`, not the rejection message (while
`submitting` is indeed reset to `false`). -/
theorem submit_rejection_clears_serverError :
    (assignServerError (some ("duplicate username")) submittingCtx).serverError =
      some ("duplicate username") ∧
    machineStep (fun _ => []) [] MState.submitting submittingCtx
        (MEvent.SUBMIT_ERROR (some ("duplicate username"))) =
      (MState.editing,
        { submittingCtx with submitting := false, serverError := none }) := by
  constructor
  · rfl
  · rfl

/- ----------------------------------------------------------------
   Server guard impurity (C8)
   ---------------------------------------------------------------- -/

/-- C8 (code bug).  The backend machine's guard `isValid` is not pure: on a
session context whose stored error map is empty (so a pure guard reading the
stored outcome would return `true` and leave the context untouched), the
guard re-invokes the validator on the current form data, returns `false`,
and mutates `ctx.errors` in place as a side effect of its own evaluation. -/
theorem server_guard_impure :
    serverBugCtx.errors = [] ∧
    (serverIsValid serverBugValidator serverBugCtx).1 = false ∧
    (serverIsValid serverBugValidator serverBugCtx).2 ≠ serverBugCtx ∧
    (serverIsValid serverBugValidator serverBugCtx).2.errors =
      [("username", "must have required property username")] := by
  refine ⟨rfl, rfl, ?_, rfl⟩
  intro h
  have := congrArg ServerCtx.errors h
  simp [serverIsValid, serverBugValidator, serverBugCtx] at this

/- ----------------------------------------------------------------
   Schema compiler theorems (C3, C4)
   ---------------------------------------------------------------- -/

theorem compileProp_ok (f : Field) (h : f.type = "select" → f.options.isSome = true) :
    ∃ p, compileProp f = Except.ok p := by
  unfold compileProp compilePropCore
  by_cases h1 : f.type = "string" ∨ f.type = "text" ∨ f.type = "textarea"
  · rw [if_pos h1]; exact ⟨_, rfl⟩
  · rw [if_neg h1]
    by_cases h2 : f.type = "email"
    · rw [if_pos h2]; exact ⟨_, rfl⟩
    · rw [if_neg h2]
      by_cases h3 : f.type = "number" ∨ f.type = "integer"
      · rw [if_pos h3]; exact ⟨_, rfl⟩
      · rw [if_neg h3]
        by_cases h4 : f.type = "select"
        · rw [if_pos h4]
          rcases Option.isSome_iff_exists.mp (h h4) with ⟨opts, hopts⟩
          rw [hopts]
          exact ⟨_, rfl⟩
        · rw [if_neg h4]
          by_cases h5 : f.type = "boolean"
          · rw [if_pos h5]; exact ⟨_, rfl⟩
          · rw [if_neg h5]
            by_cases h6 : f.type = "date"
            · rw [if_pos h6]; exact ⟨_, rfl⟩
            · rw [if_neg h6]; exact ⟨_, rfl⟩

theorem buildSchema_ok :
    ∀ (l : List Field) (acc : JsonSchema),
      (∀ f ∈ l, f.type = "select" → f.options.isSome = true) →
      (buildSchema l acc).isOk = true := by
  intro l
  induction l with
  | nil => intro acc _; rfl
  | cons g t ih =>
    intro acc hall
    obtain ⟨p, hp⟩ := compileProp_ok g (hall g (List.mem_cons_self g t))
    unfold buildSchema
    rw [hp]
    exact ih _ (fun f hf => hall f (List.mem_cons_of_mem g hf))

theorem compileProp_unknown (f : Field) (h : f.type ∉ knownFieldTypes) :
    compileProp f =
      Except.ok { type := "string", default := f.default,
                  title := truthyString f.label,
                  description := truthyString f.description } := by
  simp only [knownFieldTypes, List.mem_cons, List.not_mem_nil, or_false, not_or] at h
  obtain ⟨h1, h2, h3, h4, h5, h6, h7, h8, h9⟩ := h
  unfold compileProp compilePropCore
  rw [if_neg (not_or.mpr ⟨h1, not_or.mpr ⟨h2, h3⟩⟩), if_neg h4,
      if_neg (not_or.mpr ⟨h5, h6⟩), if_neg h7, if_neg h8, if_neg h9]

/-- C3 counterexample.  The schema compiler is not total on every field
list: a `select` field without an `options` array (reading
`field.options.map` on `undefined` throws) makes the compilation fail. -/
theorem compile_fails_on_optionless_select :
    selectFieldNoOptions.type = "select" ∧
    (formJsonToJsonSchema [selectFieldNoOptions]).isOk = false := by
  exact ⟨rfl, by decide⟩

/-- C3 (amended).  The schema compiler is total on every field list
satisfying the data model's invariant that each `select` field carries an
`options` array: compilation then never fails, and a field whose kind is
unrecognized is mapped to a free-form string-typed property (no format, no
constraints, no enumeration). -/
theorem schema_compiler_total_amended (formJson : List Field)
    (hsel : ∀ f ∈ formJson, f.type = "select" → f.options.isSome = true) :
    (formJsonToJsonSchema formJson).isOk = true ∧
    ∀ f ∈ formJson, f.type ∉ knownFieldTypes →
      ∃ p, compileProp f = Except.ok p ∧ p.type = "string" ∧ p.format = none ∧
        p.minLength = none ∧ p.maxLength = none ∧ p.pattern = none ∧
        p.minimum = none ∧ p.maximum = none ∧ p.enum = none := by
  constructor
  · exact buildSchema_ok formJson _ hsel
  · intro f _ hunk
    rw [compileProp_unknown f hunk]
    exact ⟨_, rfl, rfl, rfl, rfl, rfl, rfl, rfl, rfl, rfl⟩

/-- Witness for C3 (amended) at a list holding a plain string field, a
select field with options, and an unrecognized `richtext` kind: compilation
succeeds. -/
theorem schema_compiler_total_amended_witness :
    (formJsonToJsonSchema [usernameField, roleField, unknownKindField]).isOk = true :=
  (schema_compiler_total_amended [usernameField, roleField, unknownKindField]
    (by decide)).1

/-- C4 counterexample.  A constraint present on the field is not always
copied into the schema: a string field declaring `minLength: 0` (dropped by
the truthiness test `if (field.minLength)`) and an `email`-kind field
declaring `minLength: 5` (the email branch copies no length constraints)
both compile to a property without `minLength`. -/
theorem minLength_zero_not_copied :
    minLenZeroField.minLength = some 0 ∧
    (compileProp minLenZeroField).toOption.map SchemaProp.minLength = some none ∧
    emailMinLenField.minLength = some 5 ∧
    (compileProp emailMinLenField).toOption.map SchemaProp.minLength = some none := by
  exact ⟨rfl, by decide, rfl, by decide⟩

/-- C4 (amended).  For fields of kind `string`/`text`/`textarea` the
compiler copies `minLength`, `maxLength` and `pattern` exactly when they are
present and truthy (a nonzero length, a nonempty pattern) and omits them
otherwise — in particular `minLength: 0` is omitted — and never emits
numeric bounds; for fields of kind `number`/`integer` it copies `minimum`
and `maximum` verbatim whenever present (zero included) and omits them when
absent, and never emits string constraints. -/
theorem constraint_propagation_amended (f : Field) :
    (f.type = "string" ∨ f.type = "text" ∨ f.type = "textarea" →
      ∃ p, compileProp f = Except.ok p ∧
        p.minLength = truthyNat f.minLength ∧
        p.maxLength = truthyNat f.maxLength ∧
        p.pattern = truthyString f.pattern ∧
        p.minimum = none ∧ p.maximum = none) ∧
    (f.type = "number" ∨ f.type = "integer" →
      ∃ p, compileProp f = Except.ok p ∧
        p.minimum = f.minimum ∧ p.maximum = f.maximum ∧
        p.minLength = none ∧ p.maxLength = none ∧ p.pattern = none) := by
  constructor
  · intro h
    unfold compileProp compilePropCore
    rw [if_pos h]
    exact ⟨_, rfl, rfl, rfl, rfl, rfl, rfl⟩
  · intro h
    have h1 : ¬(f.type = "string" ∨ f.type = "text" ∨ f.type = "textarea") := by
      rcases h with h | h <;> rw [h] <;> decide
    have h2 : ¬(f.type = "email") := by
      rcases h with h | h <;> rw [h] <;> decide
    unfold compileProp compilePropCore
    rw [if_neg h1, if_neg h2, if_pos h]
    exact ⟨_, rfl, rfl, rfl, rfl, rfl, rfl⟩

/-- Witness for C4 (amended) at the example fields: `username` (string,
`minLength: 3`) keeps its length constraint; `age` (integer, bounds 18/120)
keeps both bounds verbatim. -/
theorem constraint_propagation_amended_witness :
    (∃ p, compileProp usernameField = Except.ok p ∧
      p.minLength = truthyNat usernameField.minLength ∧
      p.maxLength = truthyNat usernameField.maxLength ∧
      p.pattern = truthyString usernameField.pattern ∧
      p.minimum = none ∧ p.maximum = none) ∧
    (∃ p, compileProp ageField = Except.ok p ∧
      p.minimum = ageField.minimum ∧ p.maximum = ageField.maximum ∧
      p.minLength = none ∧ p.maxLength = none ∧ p.pattern = none) :=
  ⟨(constraint_propagation_amended usernameField).1 (Or.inl rfl),
   (constraint_propagation_amended ageField).2 (Or.inr rfl)⟩

end FormEngine
